import Mathlib

/-!
# Verification of the `ConfigManager` core of mcpm

A shallow embedding of `src/mcpm/utils/config.py`: the JSON-backed
configuration document and the operations of `ConfigManager`
(`register_server`, `unregister_server`, `enable_server_for_client`,
`disable_server_for_client`, `set_active_client`, `get_client_servers`,
`_load_config`, `_default_config`, `_get_client_manager`).

Python dictionaries are modelled as association lists with unique-key
semantics (lookup and update act on the first matching key; deletion of a
key removes it, which on the duplicate-free key lists produced by Python
dicts coincides with removing the single entry).  Python lists are Lean
lists; `list.append` is `· ++ [x]`, `list.remove` is `List.erase` (both
act on / remove the first occurrence).  Side effects are made explicit:
each mutating operation returns, alongside the new document, whether it
wrote the config file (`_save_config`) and which calls it made on external
client managers (`remove_server`).
-/

namespace Mcpm

/-- Lookup in an association list (Python `d.get(k)` / `d[k]`): first
matching key wins. -/
def alookup {β : Type} : List (String × β) → String → Option β
  | [], _ => none
  | (k, v) :: rest, key => if k = key then some v else alookup rest key

/-- The key list of an association list (Python `d.keys()`, and `k in d`). -/
def akeys {β : Type} (m : List (String × β)) : List String :=
  m.map (·.1)

/-- Update-or-append (Python `d[k] = v`): replaces the value at an existing
key in place, otherwise appends the new binding at the end, matching dict
insertion-order semantics. -/
def aset {β : Type} : List (String × β) → String → β → List (String × β)
  | [], k, v => [(k, v)]
  | (k', v') :: rest, k, v =>
    if k' = k then (k, v) :: rest else (k', v') :: aset rest k v

/-- Deletion (Python `del d[k]`): removes the binding for `k`.  On the
duplicate-free key lists of Python dicts this is exactly the removal of
the unique entry. -/
def aerase {β : Type} : List (String × β) → String → List (String × β)
  | [], _ => []
  | (k', v) :: rest, k =>
    if k' = k then aerase rest k else (k', v) :: aerase rest k

/-- In-place update of the value stored at a key (the Python pattern of
looking a mutable value up and mutating it): applies `f` to the value at
the first matching key, leaves the list unchanged if the key is absent. -/
def amodify {β : Type} : List (String × β) → String → (β → β) → List (String × β)
  | [], _, _ => []
  | (k', v') :: rest, k, f =>
    if k' = k then (k', f v') :: rest else (k', v') :: amodify rest k f

/-- One entry of the `clients` mapping: `enabled_servers` is an ordered
Python list of server names, `disabled_servers` a mapping that the given
logic never reads or writes, `installed` a boolean probed at creation. -/
structure ClientEntry (α : Type) where
  enabled_servers : List String
  disabled_servers : List (String × α)
  installed : Bool
deriving DecidableEq, Repr

/-- The root persisted document of `ConfigManager` (`self._config`):
`version`, `servers_dir`, `active_client`, the `servers` mapping
(name to server-info, of unconstrained shape `α`) and the `clients`
mapping (name to `ClientEntry`). -/
structure Config (α : Type) where
  version : String
  servers_dir : String
  active_client : String
  servers : List (String × α)
  clients : List (String × ClientEntry α)
deriving DecidableEq, Repr

/-- The three concrete client managers `_get_client_manager` can return. -/
inductive ClientManagerId : Type
  | claudeDesktop
  | windsurf
  | cursor
deriving DecidableEq, Repr

/-- `ConfigManager._get_client_manager`: returns the manager for
`claude-desktop`, `windsurf` and `cursor`, and `None` for every other
client name. -/
def get_client_manager (client_name : String) : Option ClientManagerId :=
  if client_name = "claude-desktop" then some ClientManagerId.claudeDesktop
  else if client_name = "windsurf" then some ClientManagerId.windsurf
  else if client_name = "cursor" then some ClientManagerId.cursor
  else none

/-- Modelled from the spec: `get_recommended_client` (module
`mcpm.utils.client_detector`, not part of the given sources) supplies "a
recommended default client name" from environment probing; per the data
model, `active_client` "must name a key in `clients`", so the recommended
name is one of the three default client keys, preferring an installed
client and falling back to `claude-desktop`. -/
def get_recommended_client (installed : String → Bool) : String :=
  if installed "claude-desktop" then "claude-desktop"
  else if installed "cursor" then "cursor"
  else if installed "windsurf" then "windsurf"
  else "claude-desktop"

/-- `ConfigManager._default_config`: the freshly generated default
document.  `installed` abstracts `detect_installed_clients` (with
`.get(name, False)` folded in), `servers_dir` is the manager's servers
directory. -/
def default_config {α : Type} (servers_dir : String) (installed : String → Bool) :
    Config α :=
  { version := "0.1.0"
    servers_dir := servers_dir
    active_client := get_recommended_client installed
    servers := []
    clients :=
      [ ("claude-desktop",
          { enabled_servers := [], disabled_servers := [],
            installed := installed "claude-desktop" }),
        ("cursor",
          { enabled_servers := [], disabled_servers := [],
            installed := installed "cursor" }),
        ("windsurf",
          { enabled_servers := [], disabled_servers := [],
            installed := installed "windsurf" }) ] }

/-- `ConfigManager._load_config`: `file_exists` is whether the file at
`config_path` exists, `parsed` the result of `json.load` (`none` on a
`JSONDecodeError`).  Returns the in-memory document together with whether
`_save_config` was invoked.  Total: a parse failure falls back to the
default document instead of raising. -/
def load_config {α : Type} (file_exists : Bool) (parsed : Option (Config α))
    (servers_dir : String) (installed : String → Bool) : Config α × Bool :=
  if file_exists then
    match parsed with
    | some c => (c, false)
    | none => (default_config servers_dir installed, false)
  else (default_config servers_dir installed, true)

/-- `ConfigManager.get_client_servers`:
`config.get("clients", {}).get(client_name, {}).get("enabled_servers", [])`. -/
def get_client_servers {α : Type} (c : Config α) (client_name : String) :
    List String :=
  match alookup c.clients client_name with
  | some entry => entry.enabled_servers
  | none => []

/-- `ConfigManager.register_server`: inserts/overwrites
`servers[server_name]` and saves.  The returned `Bool` records the
`_save_config` write (always performed). -/
def register_server {α : Type} (c : Config α) (server_name : String)
    (server_info : α) : Config α × Bool :=
  ({ c with servers := aset c.servers server_name server_info }, true)

/-- Helper for `unregister_server`: the per-client body of the loop
`for client in self._config.get("clients", {}).values()`. -/
def remove_from_entry {α : Type} (server_name : String) (e : ClientEntry α) :
    ClientEntry α :=
  if server_name ∈ e.enabled_servers then
    { e with enabled_servers := e.enabled_servers.erase server_name }
  else e

/-- `ConfigManager.unregister_server`: if `server_name` is a key of
`servers`, deletes it, removes it from every client's `enabled_servers`
(`list.remove`: first occurrence) and saves once.  The returned `Nat`
counts the `_save_config` calls. -/
def unregister_server {α : Type} (c : Config α) (server_name : String) :
    Config α × Nat :=
  if (alookup c.servers server_name).isSome then
    ({ c with
        servers := aerase c.servers server_name,
        clients := c.clients.map (fun p => (p.1, remove_from_entry server_name p.2)) },
      1)
  else (c, 0)

/-- Result of `enable_server_for_client`: the returned boolean, the new
document, and whether `_save_config` was invoked. -/
structure EnableResult (α : Type) where
  ok : Bool
  config : Config α
  saved : Bool
deriving DecidableEq, Repr

/-- The entry update performed by `enable_server_for_client`:
`enabled_servers.append(server_name)`. -/
def append_server {α : Type} (server_name : String) (e : ClientEntry α) :
    ClientEntry α :=
  { e with enabled_servers := e.enabled_servers ++ [server_name] }

/-- The entry update performed by `disable_server_for_client`:
`enabled_servers.remove(server_name)` (first occurrence). -/
def erase_server {α : Type} (server_name : String) (e : ClientEntry α) :
    ClientEntry α :=
  { e with enabled_servers := e.enabled_servers.erase server_name }

/-- `ConfigManager.enable_server_for_client`: `False` for an unknown
client; otherwise appends `server_name` to the client's
`enabled_servers` and saves only if it was not already present, and
returns `True`. -/
def enable_server_for_client {α : Type} (c : Config α) (server_name : String)
    (client_name : String) : EnableResult α :=
  match alookup c.clients client_name with
  | none => { ok := false, config := c, saved := false }
  | some entry =>
    if server_name ∈ entry.enabled_servers then
      { ok := true, config := c, saved := false }
    else
      { ok := true
        config :=
          { c with
              clients := amodify c.clients client_name
                (append_server server_name) }
        saved := true }

/-- Result of `disable_server_for_client`: the returned boolean, the new
document, whether `_save_config` was invoked, and the `remove_server`
calls made on external client managers (manager, server name). -/
structure DisableResult (α : Type) where
  ok : Bool
  config : Config α
  saved : Bool
  manager_calls : List (ClientManagerId × String)
deriving DecidableEq, Repr

/-- `ConfigManager.disable_server_for_client`: `False` for an unknown
client or a server not currently enabled; otherwise removes the first
occurrence of `server_name` from `enabled_servers`, saves, calls
`remove_server` on the corresponding client manager when one exists, and
returns `True`. -/
def disable_server_for_client {α : Type} (c : Config α) (server_name : String)
    (client_name : String) : DisableResult α :=
  match alookup c.clients client_name with
  | none => { ok := false, config := c, saved := false, manager_calls := [] }
  | some entry =>
    if server_name ∈ entry.enabled_servers then
      { ok := true
        config :=
          { c with
              clients := amodify c.clients client_name
                (erase_server server_name) }
        saved := true
        manager_calls :=
          match get_client_manager client_name with
          | some m => [(m, server_name)]
          | none => [] }
    else { ok := false, config := c, saved := false, manager_calls := [] }

/-- `ConfigManager.set_active_client`: rejects a name absent from
`clients` (returns `False`, no change, no save); otherwise sets
`active_client`, saves and returns `True`.  The second `Bool` records
the `_save_config` write. -/
def set_active_client {α : Type} (c : Config α) (client_name : String) :
    Config α × Bool × Bool :=
  if (alookup c.clients client_name).isSome then
    ({ c with active_client := client_name }, true, true)
  else (c, false, false)

/-- The five mutating `ConfigManager` operations, as a single step type
used for reachability and preservation statements. -/
inductive Op (α : Type) : Type
  | enable (server_name client_name : String)
  | disable (server_name client_name : String)
  | unregister (server_name : String)
  | register (server_name : String) (server_info : α)
  | setActive (client_name : String)

/-- The document produced by one mutating operation (effects projected
away). -/
def applyOp {α : Type} (op : Op α) (c : Config α) : Config α :=
  match op with
  | Op.enable s cl => (enable_server_for_client c s cl).config
  | Op.disable s cl => (disable_server_for_client c s cl).config
  | Op.unregister s => (unregister_server c s).1
  | Op.register s info => (register_server c s info).1
  | Op.setActive cl => (set_active_client c cl).1

/-- The document after a sequence of mutating operations. -/
def runOps {α : Type} (c : Config α) : List (Op α) → Config α
  | [] => c
  | op :: ops => runOps (applyOp op c) ops

/-- A fresh client entry with no enabled servers, used to instantiate
theorems on concrete documents. -/
def emptyEntry : ClientEntry String :=
  { enabled_servers := [], disabled_servers := [], installed := false }

/-- A small concrete document used to instantiate theorems: the three
default clients, one registered server `srv` enabled for `cursor`. -/
def exConfig : Config String :=
  { version := "0.1.0"
    servers_dir := "/home/u/.config/mcp/servers"
    active_client := "cursor"
    servers := [("srv", "info")]
    clients :=
      [ ("claude-desktop",
          { enabled_servers := [], disabled_servers := [], installed := false }),
        ("cursor",
          { enabled_servers := ["srv"], disabled_servers := [], installed := true }),
        ("windsurf",
          { enabled_servers := [], disabled_servers := [], installed := false }) ] }

/-- A concrete document whose `clients` mapping holds a client name,
`cline`, that `_get_client_manager` does not support, with server `x`
enabled for it.  Such documents are reachable: `_load_config` accepts any
parseable JSON file. -/
def clineConfig : Config String :=
  { version := "0.1.0"
    servers_dir := "/home/u/.config/mcp/servers"
    active_client := "cline"
    servers := []
    clients :=
      [ ("cline",
          { enabled_servers := ["x"], disabled_servers := [], installed := true }) ] }

/-- A concrete document in which `cursor`'s `enabled_servers` list holds
the name `x` twice (Python stores `enabled_servers` as a plain list, so
such a file is loadable). -/
def dupConfig : Config String :=
  { version := "0.1.0"
    servers_dir := "/home/u/.config/mcp/servers"
    active_client := "cursor"
    servers := []
    clients :=
      [ ("cursor",
          { enabled_servers := ["x", "x"], disabled_servers := [],
            installed := true }) ] }

/-! ## Association-list lemmas -/

theorem alookup_isSome_iff {β : Type} (m : List (String × β)) (k : String) :
    (alookup m k).isSome ↔ k ∈ akeys m := by
  induction m with
  | nil => simp [alookup, akeys]
  | cons p rest ih =>
    obtain ⟨a, b⟩ := p
    by_cases h : a = k
    · subst h; simp [alookup, akeys]
    · have h1 : alookup ((a, b) :: rest) k = alookup rest k := by
        simp [alookup, h]
      have h2 : akeys ((a, b) :: rest) = a :: akeys rest := rfl
      rw [h1, h2, ih, List.mem_cons]
      constructor
      · exact Or.inr
      · rintro (hk | hk)
        · exact absurd hk.symm h
        · exact hk

theorem alookup_mem {β : Type} {m : List (String × β)} {k : String} {v : β}
    (h : alookup m k = some v) : (k, v) ∈ m := by
  induction m with
  | nil => simp [alookup] at h
  | cons p rest ih =>
    obtain ⟨a, b⟩ := p
    by_cases hak : a = k
    · subst hak
      simp [alookup] at h
      subst h
      exact List.mem_cons_self _ _
    · simp [alookup, hak] at h
      exact List.mem_cons_of_mem _ (ih h)

theorem alookup_amodify_self {β : Type} (m : List (String × β)) (k : String)
    (f : β → β) : alookup (amodify m k f) k = (alookup m k).map f := by
  induction m with
  | nil => simp [alookup, amodify]
  | cons p rest ih =>
    obtain ⟨a, b⟩ := p
    by_cases h : a = k
    · subst h; simp [alookup, amodify]
    · simp [alookup, amodify, h, ih]

theorem akeys_amodify {β : Type} (m : List (String × β)) (k : String)
    (f : β → β) : akeys (amodify m k f) = akeys m := by
  induction m with
  | nil => simp [amodify]
  | cons p rest ih =>
    obtain ⟨a, b⟩ := p
    by_cases h : a = k
    · subst h; simp [amodify, akeys]
    · simp [amodify, akeys, h] at ih ⊢
      exact ih

theorem amodify_forall {β : Type} {P : β → Prop} (m : List (String × β))
    (k : String) (f : β → β) (h : ∀ e ∈ m, P e.2)
    (hf : ∀ v, alookup m k = some v → P (f v)) :
    ∀ e ∈ amodify m k f, P e.2 := by
  induction m with
  | nil => simp [amodify]
  | cons p rest ih =>
    obtain ⟨a, b⟩ := p
    by_cases hak : a = k
    · subst hak
      simp only [amodify, if_pos rfl]
      intro e he
      rcases List.mem_cons.mp he with he | he
      · subst he
        exact hf b (by simp [alookup])
      · exact h e (List.mem_cons_of_mem _ he)
    · simp only [amodify, if_neg hak]
      intro e he
      rcases List.mem_cons.mp he with he | he
      · subst he
        exact h (a, b) (List.mem_cons_self _ _)
      · exact ih (fun e' he' => h e' (List.mem_cons_of_mem _ he'))
          (fun v hv => hf v (by simpa [alookup, hak] using hv)) e he

theorem alookup_map_snd {β : Type} (m : List (String × β)) (k : String)
    (g : β → β) :
    alookup (m.map (fun p => (p.1, g p.2))) k = (alookup m k).map g := by
  induction m with
  | nil => simp [alookup]
  | cons p rest ih =>
    obtain ⟨a, b⟩ := p
    by_cases h : a = k
    · subst h; simp [alookup]
    · simp [alookup, h, ih]

theorem akeys_map_snd {β : Type} (m : List (String × β)) (g : β → β) :
    akeys (m.map (fun p => (p.1, g p.2))) = akeys m := by
  simp [akeys]

theorem not_mem_akeys_aerase {β : Type} (m : List (String × β)) (k : String) :
    k ∉ akeys (aerase m k) := by
  induction m with
  | nil => simp [aerase, akeys]
  | cons p rest ih =>
    obtain ⟨a, b⟩ := p
    by_cases h : a = k
    · subst h; simpa [aerase] using ih
    · simp [aerase, akeys, h] at ih ⊢
      exact ⟨fun hk => h hk.symm, ih⟩

theorem alookup_aset_self {β : Type} (m : List (String × β)) (k : String)
    (v : β) : alookup (aset m k v) k = some v := by
  induction m with
  | nil => simp [aset, alookup]
  | cons p rest ih =>
    obtain ⟨a, b⟩ := p
    by_cases h : a = k
    · subst h; simp [aset, alookup]
    · simp [aset, alookup, h, ih]

theorem nodup_append_singleton {l : List String} {a : String}
    (h : l.Nodup) (ha : a ∉ l) : (l ++ [a]).Nodup := by
  simp [List.nodup_append, h]
  exact ha

/-! ## Claims -/

/-- C1: for every client name present in the `clients` mapping and every
server name, calling `enable_server_for_client(server, client)` twice
starting from any state yields the same `enabled_servers` sequence for
that client as calling it once, and both calls return `True`. -/
theorem enable_idempotent {α : Type} (c : Config α) (server client : String)
    (h : client ∈ akeys c.clients) :
    get_client_servers (enable_server_for_client
        (enable_server_for_client c server client).config server client).config
        client
      = get_client_servers (enable_server_for_client c server client).config
          client ∧
    (enable_server_for_client c server client).ok = true ∧
    (enable_server_for_client
        (enable_server_for_client c server client).config server client).ok
      = true := by
  obtain ⟨entry, hentry⟩ :=
    Option.isSome_iff_exists.mp ((alookup_isSome_iff c.clients client).mpr h)
  by_cases hmem : server ∈ entry.enabled_servers
  · simp [enable_server_for_client, hentry, hmem]
  · have h1 : enable_server_for_client c server client =
      { ok := true
        config := { c with
          clients := amodify c.clients client (append_server server) }
        saved := true } := by
      simp [enable_server_for_client, hentry, hmem]
    have h2 : alookup (amodify c.clients client (append_server server)) client
        = some (append_server server entry) := by
      rw [alookup_amodify_self, hentry]; rfl
    rw [h1]
    simp [enable_server_for_client, h2, append_server]

theorem enable_idempotent_witness :
    "cursor" ∈ akeys exConfig.clients ∧
    (get_client_servers (enable_server_for_client
        (enable_server_for_client exConfig "newsrv" "cursor").config "newsrv"
        "cursor").config "cursor"
      = get_client_servers
          (enable_server_for_client exConfig "newsrv" "cursor").config
          "cursor" ∧
    (enable_server_for_client exConfig "newsrv" "cursor").ok = true ∧
    (enable_server_for_client (enable_server_for_client exConfig "newsrv"
        "cursor").config "newsrv" "cursor").ok = true) :=
  ⟨by decide, enable_idempotent exConfig "newsrv" "cursor" (by decide)⟩

/-- C5: `set_active_client(name)` returns `False` and changes nothing (no
document change, no file write) when `name` is not a key of `clients`;
when `name` is a key it sets `active_client` to `name`, persists and
returns `True`. -/
theorem set_active_client_spec {α : Type} (c : Config α) (name : String) :
    (name ∉ akeys c.clients → set_active_client c name = (c, false, false)) ∧
    (name ∈ akeys c.clients →
      set_active_client c name
        = ({ c with active_client := name }, true, true)) := by
  have hiff := alookup_isSome_iff c.clients name
  constructor
  · intro hn
    have hfalse : ¬ (alookup c.clients name).isSome = true :=
      fun hs => hn (hiff.mp hs)
    simp [set_active_client, hfalse]
  · intro hn
    simp [set_active_client, hiff.mpr hn]

theorem set_active_client_spec_witness :
    set_active_client exConfig "unknown" = (exConfig, false, false) ∧
    set_active_client exConfig "windsurf"
      = ({ exConfig with active_client := "windsurf" }, true, true) :=
  ⟨(set_active_client_spec exConfig "unknown").1 (by decide),
   (set_active_client_spec exConfig "windsurf").2 (by decide)⟩

/-- C6: for a client present in `clients`, if `server` is not in that
client's `enabled_servers` then `disable_server_for_client` returns
`False`, leaves the document unchanged, performs no file write and makes
no client-manager call. -/
theorem disable_not_enabled_noop {α : Type} (c : Config α)
    (server client : String) (entry : ClientEntry α)
    (hentry : alookup c.clients client = some entry)
    (hmem : server ∉ entry.enabled_servers) :
    disable_server_for_client c server client =
      { ok := false, config := c, saved := false, manager_calls := [] } := by
  simp [disable_server_for_client, hentry, hmem]

theorem disable_not_enabled_noop_witness :
    disable_server_for_client exConfig "ghost" "cursor" =
      { ok := false, config := exConfig, saved := false, manager_calls := [] } :=
  disable_not_enabled_noop exConfig "ghost" "cursor"
    { enabled_servers := ["srv"], disabled_servers := [], installed := true }
    (by decide) (by decide)

/-- C9: for a client present in `clients`, `enable_server_for_client`
writes the config file exactly when it changed the document, which is
exactly when `server` was not already in the client's `enabled_servers`;
when `server` was already present it returns `True` with no write and the
document unchanged. -/
theorem enable_saves_iff_changed {α : Type} (c : Config α)
    (server client : String) (entry : ClientEntry α)
    (hentry : alookup c.clients client = some entry) :
    ((enable_server_for_client c server client).saved = true ↔
      (enable_server_for_client c server client).config ≠ c) ∧
    ((enable_server_for_client c server client).saved = true ↔
      server ∉ entry.enabled_servers) ∧
    (server ∈ entry.enabled_servers →
      enable_server_for_client c server client =
        { ok := true, config := c, saved := false }) := by
  by_cases hmem : server ∈ entry.enabled_servers
  · simp [enable_server_for_client, hentry, hmem]
  · have hlook : alookup (amodify c.clients client (append_server server)) client
        = some (append_server server entry) := by
      rw [alookup_amodify_self, hentry]; rfl
    have hne : ({ c with
        clients := amodify c.clients client (append_server server) } : Config α)
        ≠ c := by
      intro heq
      have hgc := congrArg (fun cc : Config α => get_client_servers cc client) heq
      simp [get_client_servers, hlook, hentry, append_server] at hgc
    simp [enable_server_for_client, hentry, hmem, hne]

theorem enable_saves_iff_changed_witness :
    (((enable_server_for_client exConfig "newsrv" "claude-desktop").saved
        = true ↔
      (enable_server_for_client exConfig "newsrv" "claude-desktop").config
        ≠ exConfig) ∧
    ((enable_server_for_client exConfig "newsrv" "claude-desktop").saved
        = true ↔
      "newsrv" ∉ emptyEntry.enabled_servers) ∧
    ("newsrv" ∈ emptyEntry.enabled_servers →
      enable_server_for_client exConfig "newsrv" "claude-desktop" =
        { ok := true, config := exConfig, saved := false })) :=
  enable_saves_iff_changed exConfig "newsrv" "claude-desktop" emptyEntry
    (by decide)

/-- C10: for every name not present as a key of `servers`,
`unregister_server(name)` leaves the entire document unchanged and makes
no file write, even when the name occurs in some client's
`enabled_servers`. -/
theorem unregister_unknown_noop {α : Type} (c : Config α) (name : String)
    (h : name ∉ akeys c.servers) :
    unregister_server c name = (c, 0) := by
  have hfalse : ¬ (alookup c.servers name).isSome = true :=
    fun hs => h ((alookup_isSome_iff _ _).mp hs)
  simp [unregister_server, hfalse]

theorem unregister_unknown_noop_witness :
    unregister_server clineConfig "x" = (clineConfig, 0) :=
  unregister_unknown_noop clineConfig "x" (by decide)

/-- C2 counterexample: on a document whose `clients` mapping holds the
name `cline` (loadable from a config file), disabling an enabled server
returns `True` yet makes no client-manager call, because
`_get_client_manager` returns `None` for `cline`. -/
theorem disable_calls_manager_counterexample :
    "cline" ∈ akeys clineConfig.clients ∧
    (disable_server_for_client clineConfig "x" "cline").ok = true ∧
    (disable_server_for_client clineConfig "x" "cline").manager_calls = [] := by
  decide

/-- C2 (amended): for every client name present in the `clients` mapping
for which `_get_client_manager` supplies a manager (`claude-desktop`,
`windsurf`, `cursor`), whenever `disable_server_for_client(server,
client)` actually removes the server (returns `True`), it also invokes
that manager's `remove_server(server)`. -/
theorem disable_calls_manager {α : Type} (c : Config α)
    (server client : String) (m : ClientManagerId)
    (hc : client ∈ akeys c.clients)
    (hm : get_client_manager client = some m)
    (hok : (disable_server_for_client c server client).ok = true) :
    (disable_server_for_client c server client).manager_calls
      = [(m, server)] := by
  obtain ⟨entry, hentry⟩ :=
    Option.isSome_iff_exists.mp ((alookup_isSome_iff c.clients client).mpr hc)
  by_cases hmem : server ∈ entry.enabled_servers
  · simp [disable_server_for_client, hentry, hmem, hm]
  · simp [disable_server_for_client, hentry, hmem] at hok

theorem disable_calls_manager_witness :
    (disable_server_for_client exConfig "srv" "cursor").manager_calls
      = [(ClientManagerId.cursor, "srv")] :=
  disable_calls_manager exConfig "srv" "cursor" ClientManagerId.cursor
    (by decide) (by decide) (by decide)

/-- C7: when the config file exists but does not parse as JSON, loading
is total (returns instead of raising) and the in-memory document is a
freshly generated default document: version `0.1.0`, the manager's
servers directory, the recommended active client, an empty `servers`
mapping, and exactly the three default client entries. -/
theorem load_invalid_json_defaults (α : Type) (d : String)
    (installed : String → Bool) :
    @load_config α true none d installed
      = (@default_config α d installed, false) ∧
    (@default_config α d installed).version = "0.1.0" ∧
    (@default_config α d installed).servers_dir = d ∧
    (@default_config α d installed).active_client
      = get_recommended_client installed ∧
    (@default_config α d installed).servers = [] ∧
    akeys (@default_config α d installed).clients
      = ["claude-desktop", "cursor", "windsurf"] :=
  ⟨rfl, rfl, rfl, rfl, rfl, rfl⟩

theorem not_mem_remove_from_entry {α : Type} (name : String)
    (e : ClientEntry α) (h : e.enabled_servers.count name ≤ 1) :
    name ∉ (remove_from_entry name e).enabled_servers := by
  unfold remove_from_entry
  by_cases hmem : name ∈ e.enabled_servers
  · simp only [if_pos hmem]
    have hc : (e.enabled_servers.erase name).count name
        = e.enabled_servers.count name - 1 := List.count_erase_self _ _
    have h1 : 0 < e.enabled_servers.count name := List.count_pos_iff.mpr hmem
    rw [← List.count_eq_zero]
    omega
  · simpa [if_neg hmem] using hmem

theorem unregister_present_clean {α : Type} (c : Config α) (name : String)
    (hs : (alookup c.servers name).isSome = true)
    (hcount : ∀ e ∈ c.clients, e.2.enabled_servers.count name ≤ 1) :
    name ∉ akeys (unregister_server c name).1.servers ∧
    (∀ e ∈ (unregister_server c name).1.clients,
      name ∉ e.2.enabled_servers) ∧
    (unregister_server c name).2 = 1 := by
  have heq : unregister_server c name =
      ({ c with
          servers := aerase c.servers name,
          clients := c.clients.map
            (fun p => (p.1, remove_from_entry name p.2)) }, 1) := by
    simp [unregister_server, hs]
  rw [heq]
  refine ⟨not_mem_akeys_aerase _ _, ?_, rfl⟩
  intro e he
  obtain ⟨p, hp, rfl⟩ := List.mem_map.mp he
  exact not_mem_remove_from_entry name p.2 (hcount p hp)

/-- C3 counterexample: from a state in which `cursor` is a key of
`clients` but its `enabled_servers` holds `x` twice, the sequence
`register_server("x", info)`, `enable_server_for_client("x", "cursor")`,
`unregister_server("x")` leaves an `x` in `clients["cursor"]`'s
`enabled_servers`: `list.remove` deletes only the first occurrence. -/
theorem unregister_removes_everywhere_counterexample :
    "cursor" ∈ akeys dupConfig.clients ∧
    "x" ∈ get_client_servers
      (unregister_server
        (enable_server_for_client
          (register_server dupConfig "x" "info").1 "x" "cursor").config
        "x").1 "cursor" := by
  decide

/-- C3 (amended): from any state in which `cursor` is a key of `clients`
and every client's `enabled_servers` contains the given name at most once
(the spec's duplicate-free invariant), the sequence
`register_server(name, info)`, `enable_server_for_client(name, "cursor")`,
`unregister_server(name)` leaves the name absent from both `servers` and
`clients["cursor"]`'s `enabled_servers`, saving exactly once in the final
call; more generally, under the same at-most-once condition,
`unregister_server(name)` removes the name from every client's
`enabled_servers` whenever the name was a key of `servers`, and saves
exactly once. -/
theorem unregister_removes_everywhere {α : Type} (c : Config α)
    (name : String) (info : α)
    (hcount : ∀ e ∈ c.clients, e.2.enabled_servers.count name ≤ 1) :
    ("cursor" ∈ akeys c.clients →
      (name ∉ akeys (unregister_server
          (enable_server_for_client
            (register_server c name info).1 name "cursor").config
          name).1.servers ∧
       name ∉ get_client_servers (unregister_server
          (enable_server_for_client
            (register_server c name info).1 name "cursor").config
          name).1 "cursor" ∧
       (unregister_server
          (enable_server_for_client
            (register_server c name info).1 name "cursor").config name).2
         = 1)) ∧
    (name ∈ akeys c.servers →
      (name ∉ akeys (unregister_server c name).1.servers ∧
       (∀ e ∈ (unregister_server c name).1.clients,
          name ∉ e.2.enabled_servers) ∧
       (unregister_server c name).2 = 1)) := by
  constructor
  · intro hc
    have hentry0 :=
      Option.isSome_iff_exists.mp ((alookup_isSome_iff c.clients "cursor").mpr hc)
    obtain ⟨entry, hentry⟩ := hentry0
    have hc1 : (register_server c name info).1
        = { c with servers := aset c.servers name info } := rfl
    rw [hc1]
    have hentry1 : alookup
        ({ c with servers := aset c.servers name info } : Config α).clients
        "cursor" = some entry := hentry
    by_cases hmem : name ∈ entry.enabled_servers
    · have hc2 : enable_server_for_client
          ({ c with servers := aset c.servers name info } : Config α) name
          "cursor"
          = { ok := true,
              config := { c with servers := aset c.servers name info },
              saved := false } := by
        simp [enable_server_for_client, hentry1, hmem]
      rw [hc2]
      have hs2 : (alookup
          ({ c with servers := aset c.servers name info } : Config α).servers
          name).isSome = true := by
        simp [alookup_aset_self]
      obtain ⟨h1, h2, h3⟩ := unregister_present_clean _ name hs2 hcount
      refine ⟨h1, ?_, h3⟩
      cases hl : alookup (unregister_server
          ({ c with servers := aset c.servers name info } : Config α)
          name).1.clients "cursor" with
      | none => simp [get_client_servers, hl]
      | some e =>
        have := h2 ("cursor", e) (alookup_mem hl)
        simpa [get_client_servers, hl] using this
    · have hc2 : enable_server_for_client
          ({ c with servers := aset c.servers name info } : Config α) name
          "cursor"
          = { ok := true,
              config := { c with
                servers := aset c.servers name info,
                clients := amodify c.clients "cursor" (append_server name) },
              saved := true } := by
        simp [enable_server_for_client, hentry1, hmem]
      rw [hc2]
      have hs2 : (alookup (aset c.servers name info) name).isSome = true := by
        simp [alookup_aset_self]
      have hcount2 : ∀ e ∈ amodify c.clients "cursor" (append_server name),
          e.2.enabled_servers.count name ≤ 1 := by
        refine @amodify_forall (ClientEntry α)
          (fun v => v.enabled_servers.count name ≤ 1) c.clients "cursor"
          (append_server name) hcount ?_
        intro v hv
        rw [hentry] at hv
        obtain rfl : entry = v := Option.some.inj hv
        have hzero : entry.enabled_servers.count name = 0 :=
          List.count_eq_zero.mpr hmem
        simp [append_server, List.count_append, hzero]
      obtain ⟨h1, h2, h3⟩ := unregister_present_clean
        ({ c with
            servers := aset c.servers name info,
            clients := amodify c.clients "cursor" (append_server name) }
          : Config α) name hs2 hcount2
      refine ⟨h1, ?_, h3⟩
      cases hl : alookup (unregister_server
          ({ c with
              servers := aset c.servers name info,
              clients := amodify c.clients "cursor" (append_server name) }
            : Config α) name).1.clients "cursor" with
      | none => simp [get_client_servers, hl]
      | some e =>
        have := h2 ("cursor", e) (alookup_mem hl)
        simpa [get_client_servers, hl] using this
  · intro hs
    exact unregister_present_clean c name
      ((alookup_isSome_iff c.servers name).mpr hs) hcount

theorem unregister_removes_everywhere_witness :
    (∀ e ∈ exConfig.clients, e.2.enabled_servers.count "srv" ≤ 1) ∧
    ("srv" ∉ akeys (unregister_server
        (enable_server_for_client
          (register_server exConfig "srv" "info2").1 "srv" "cursor").config
        "srv").1.servers ∧
     "srv" ∉ get_client_servers (unregister_server
        (enable_server_for_client
          (register_server exConfig "srv" "info2").1 "srv" "cursor").config
        "srv").1 "cursor" ∧
     (unregister_server
        (enable_server_for_client
          (register_server exConfig "srv" "info2").1 "srv" "cursor").config
        "srv").2 = 1) ∧
    ("srv" ∉ akeys (unregister_server exConfig "srv").1.servers ∧
     (∀ e ∈ (unregister_server exConfig "srv").1.clients,
        "srv" ∉ e.2.enabled_servers) ∧
     (unregister_server exConfig "srv").2 = 1) :=
  ⟨by decide,
   (unregister_removes_everywhere exConfig "srv" "info2" (by decide)).1
     (by decide),
   (unregister_removes_everywhere exConfig "srv" "info2" (by decide)).2
     (by decide)⟩

theorem applyOp_clients_keys {α : Type} (op : Op α) (c : Config α) :
    akeys (applyOp op c).clients = akeys c.clients := by
  cases op with
  | enable s cl =>
    cases h : alookup c.clients cl with
    | none => simp [applyOp, enable_server_for_client, h]
    | some entry =>
      by_cases hm : s ∈ entry.enabled_servers <;>
        simp [applyOp, enable_server_for_client, h, hm, akeys_amodify]
  | disable s cl =>
    cases h : alookup c.clients cl with
    | none => simp [applyOp, disable_server_for_client, h]
    | some entry =>
      by_cases hm : s ∈ entry.enabled_servers <;>
        simp [applyOp, disable_server_for_client, h, hm, akeys_amodify]
  | unregister s =>
    by_cases h : (alookup c.servers s).isSome = true <;>
      simp [applyOp, unregister_server, h, akeys_map_snd]
  | register s info => rfl
  | setActive cl =>
    by_cases h : (alookup c.clients cl).isSome = true <;>
      simp [applyOp, set_active_client, h]

theorem applyOp_active_mem {α : Type} (op : Op α) (c : Config α)
    (h : c.active_client ∈ akeys c.clients) :
    (applyOp op c).active_client ∈ akeys (applyOp op c).clients := by
  rw [applyOp_clients_keys]
  cases op with
  | enable s cl =>
    cases halook : alookup c.clients cl with
    | none => simpa [applyOp, enable_server_for_client, halook] using h
    | some entry =>
      by_cases hm : s ∈ entry.enabled_servers <;>
        simpa [applyOp, enable_server_for_client, halook, hm] using h
  | disable s cl =>
    cases halook : alookup c.clients cl with
    | none => simpa [applyOp, disable_server_for_client, halook] using h
    | some entry =>
      by_cases hm : s ∈ entry.enabled_servers <;>
        simpa [applyOp, disable_server_for_client, halook, hm] using h
  | unregister s =>
    by_cases hh : (alookup c.servers s).isSome = true <;>
      simpa [applyOp, unregister_server, hh] using h
  | register s info => simpa [applyOp, register_server] using h
  | setActive cl =>
    by_cases hh : (alookup c.clients cl).isSome = true
    · have hmem := (alookup_isSome_iff c.clients cl).mp hh
      simpa [applyOp, set_active_client, hh] using hmem
    · simpa [applyOp, set_active_client, hh] using h

theorem runOps_active_mem {α : Type} (ops : List (Op α)) (c : Config α)
    (h : c.active_client ∈ akeys c.clients) :
    (runOps c ops).active_client ∈ akeys (runOps c ops).clients := by
  induction ops generalizing c with
  | nil => simpa [runOps] using h
  | cons op ops ih =>
    simpa [runOps] using ih (applyOp op c) (applyOp_active_mem op c h)

theorem recommended_mem (installed : String → Bool) :
    get_recommended_client installed
      ∈ (["claude-desktop", "cursor", "windsurf"] : List String) := by
  unfold get_recommended_client
  split
  · decide
  · split
    · decide
    · split <;> decide

/-- C4: in every state reachable from a default document by a sequence of
mutating `ConfigManager` operations, `active_client` is a key of the
`clients` mapping. -/
theorem active_client_invariant (α : Type) (d : String)
    (installed : String → Bool) (ops : List (Op α)) :
    (runOps (@default_config α d installed) ops).active_client
      ∈ akeys (runOps (@default_config α d installed) ops).clients :=
  runOps_active_mem ops _ (recommended_mem installed)

theorem nodup_remove_from_entry {α : Type} (name : String) (e : ClientEntry α)
    (h : e.enabled_servers.Nodup) :
    (remove_from_entry name e).enabled_servers.Nodup := by
  unfold remove_from_entry
  by_cases hm : name ∈ e.enabled_servers
  · simpa [if_pos hm] using h.erase name
  · simpa [if_neg hm] using h

/-- C8: every mutating `ConfigManager` operation
(`enable_server_for_client`, `disable_server_for_client`,
`unregister_server`, `register_server`, `set_active_client`) preserves
the property that each client's `enabled_servers` is duplicate-free. -/
theorem ops_preserve_nodup {α : Type} (c : Config α) (op : Op α)
    (h : ∀ e ∈ c.clients, e.2.enabled_servers.Nodup) :
    ∀ e ∈ (applyOp op c).clients, e.2.enabled_servers.Nodup := by
  cases op with
  | enable s cl =>
    cases halook : alookup c.clients cl with
    | none => simpa [applyOp, enable_server_for_client, halook] using h
    | some entry =>
      by_cases hm : s ∈ entry.enabled_servers
      · simpa [applyOp, enable_server_for_client, halook, hm] using h
      · have hstep : (applyOp (Op.enable s cl) c).clients
            = amodify c.clients cl (append_server s) := by
          simp [applyOp, enable_server_for_client, halook, hm]
        rw [hstep]
        refine @amodify_forall (ClientEntry α)
          (fun v => v.enabled_servers.Nodup) c.clients cl (append_server s)
          h ?_
        intro v hv
        rw [halook] at hv
        obtain rfl : entry = v := Option.some.inj hv
        have hnd : entry.enabled_servers.Nodup :=
          h (cl, entry) (alookup_mem halook)
        simpa [append_server] using nodup_append_singleton hnd hm
  | disable s cl =>
    cases halook : alookup c.clients cl with
    | none => simpa [applyOp, disable_server_for_client, halook] using h
    | some entry =>
      by_cases hm : s ∈ entry.enabled_servers
      · have hstep : (applyOp (Op.disable s cl) c).clients
            = amodify c.clients cl (erase_server s) := by
          simp [applyOp, disable_server_for_client, halook, hm]
        rw [hstep]
        refine @amodify_forall (ClientEntry α)
          (fun v => v.enabled_servers.Nodup) c.clients cl (erase_server s)
          h ?_
        intro v hv
        have hnd : v.enabled_servers.Nodup := h (cl, v) (alookup_mem hv)
        simpa [erase_server] using hnd.erase s
      · simpa [applyOp, disable_server_for_client, halook, hm] using h
  | unregister s =>
    by_cases hh : (alookup c.servers s).isSome = true
    · have hstep : (applyOp (Op.unregister s) c).clients
          = c.clients.map (fun p => (p.1, remove_from_entry s p.2)) := by
        simp [applyOp, unregister_server, hh]
      rw [hstep]
      intro e he
      obtain ⟨p, hp, rfl⟩ := List.mem_map.mp he
      exact nodup_remove_from_entry s p.2 (h p hp)
    · simpa [applyOp, unregister_server, hh] using h
  | register s info => exact h
  | setActive cl =>
    by_cases hh : (alookup c.clients cl).isSome = true <;>
      simpa [applyOp, set_active_client, hh] using h

theorem ops_preserve_nodup_witness :
    (∀ e ∈ exConfig.clients, e.2.enabled_servers.Nodup) ∧
    (∀ e ∈ (applyOp (Op.enable "srv" "cursor") exConfig).clients,
      e.2.enabled_servers.Nodup) :=
  ⟨by decide,
   ops_preserve_nodup exConfig (Op.enable "srv" "cursor") (by decide)⟩

end Mcpm
